import Mathlib

/- Verification of the SHA-1 streaming hash engine exposed by
   src/lib/Crypto/Hash/SHA1.py.  The Python file is a binding shim: the
   compression function, padding and state machine live in the native
   library Crypto.Hash._SHA1, which is not part of this repository
   checkout.  Following the specification, the engine itself is modelled
   here as a value-level state machine; the wrapper-level facts
   (digest_size, block_size, oid, the truthiness test in the constructor,
   the byte-string check in update) are embedded from the Python source. -/

namespace SHA1

/-- Accumulator vector: the five 32-bit running digest words. -/
abbrev Acc := Nat × Nat × Nat × Nat × Nat

/-- Modelled from the spec: the HashState entity of the missing native
engine, holding the five 32-bit accumulators, the partial 64-byte block
buffer, and the total byte count ever fed in. -/
structure HashState where
  h : Acc
  buffer : List Nat
  totalLength : Nat
deriving DecidableEq

/-- Modelled from the spec: SHA1_init in the native library returns the
state with the five fixed initial accumulator values, empty buffer and
zero total length. -/
def init : HashState :=
  { h := (0x67452301, 0xEFCDAB89, 0x98BADCFE, 0x10325476, 0xC3D2E1F0),
    buffer := [], totalLength := 0 }

/-- Left rotation of a 32-bit word by n bits (0 < n < 32). -/
def rotl (n x : Nat) : Nat := ((x <<< n) ||| (x >>> (32 - n))) % 2 ^ 32

/-- Round function of rounds 0-19. -/
def f1 (b c d : Nat) : Nat := (b &&& c) ||| ((b ^^^ 0xFFFFFFFF) &&& d)

/-- Round function of rounds 20-39. -/
def f2 (b c d : Nat) : Nat := b ^^^ c ^^^ d

/-- Round function of rounds 40-59. -/
def f3 (b c d : Nat) : Nat := (b &&& c) ||| (b &&& d) ||| (c &&& d)

/-- Round function of rounds 60-79. -/
def f4 (b c d : Nat) : Nat := b ^^^ c ^^^ d

/-- Modelled from the spec: group the 64 block bytes into 16 big-endian
32-bit words. -/
def bytesToWords : List Nat → List Nat
  | b0 :: b1 :: b2 :: b3 :: rest =>
      (((b0 * 256 + b1) * 256 + b2) * 256 + b3) :: bytesToWords rest
  | _ => []

/-- One step of the message-schedule expansion: the next word is the
left-rotate-by-1 of the XOR of the words 3, 8, 14 and 16 positions back.
The accumulator list keeps the newest word first. -/
def schedStep (acc : List Nat) : List Nat :=
  rotl 1 (acc.getD 2 0 ^^^ acc.getD 7 0 ^^^ acc.getD 13 0 ^^^ acc.getD 15 0) :: acc

/-- Expand the reversed 16-word list by the given number of schedule
steps and return the schedule in order. -/
def extendSchedule : Nat → List Nat → List Nat
  | 0, acc => acc.reverse
  | fuel+1, acc => extendSchedule fuel (schedStep acc)

/-- Modelled from the spec: the 80-word message schedule of one block. -/
def schedule (block : List Nat) : List Nat :=
  extendSchedule 64 (bytesToWords block).reverse

/-- The schedule recurrence: each word from index 16 on is the
left-rotate-by-1 of the XOR of the words 3, 8, 14 and 16 positions
back. -/
def schedRecur (L : List Nat) : Prop :=
  ∀ i : Nat, 16 ≤ i → i < L.length →
    L.getD i 0 = rotl 1 (L.getD (i - 3) 0 ^^^ L.getD (i - 8) 0 ^^^
      L.getD (i - 14) 0 ^^^ L.getD (i - 16) 0)

/-- Modelled from the spec: one SHA-1 round.  The new a is the 5-bit
left-rotate of a plus the round function plus e plus the schedule word
plus the round constant, b is rotated by 30 bits, and the registers
shift down. -/
def roundStep (fr : Nat → Nat → Nat → Nat) (kc w : Nat) : Acc → Acc
  | (a, b, c, d, e) => ((rotl 5 a + fr b c d + e + w + kc) % 2 ^ 32, a, rotl 30 b, c, d)

/-- Modelled from the spec: one group of rounds sharing a round function
and an additive constant, consuming its schedule words in order.  The
recursion is spelled with List.rec so that its unfolding equations hold
by rfl. -/
def groupRounds (fr : Nat → Nat → Nat → Nat) (kc : Nat) (ws : List Nat) (s : Acc) : Acc :=
  List.rec (motive := fun _ => Acc → Acc) (fun t => t)
    (fun w _ ih t => ih (roundStep fr kc w t)) ws s

/-- Modelled from the spec: the 80 rounds, split into four groups of 20
with per-group boolean function and additive constant. -/
def processRounds (ws : List Nat) (s : Acc) : Acc :=
  groupRounds f4 0xCA62C1D6 (ws.drop 60)
    (groupRounds f3 0x8F1BBCDC ((ws.drop 40).take 20)
      (groupRounds f2 0x6ED9EBA1 ((ws.drop 20).take 20)
        (groupRounds f1 0x5A827999 (ws.take 20) s)))

/-- Modelled from the spec: after the 80 rounds, the five working
registers are added into the five running accumulators modulo 2^32. -/
def addAcc : Acc → Acc → Acc
  | (h0, h1, h2, h3, h4), (a, b, c, d, e) =>
      ((h0 + a) % 2 ^ 32, (h1 + b) % 2 ^ 32, (h2 + c) % 2 ^ 32,
       (h3 + d) % 2 ^ 32, (h4 + e) % 2 ^ 32)

/-- Modelled from the spec: the compression function.  It expands one
64-byte block into the 80-word schedule, runs the 80 rounds on the five
working registers, and adds the result into the running accumulators
modulo 2^32. -/
def compress (h : Acc) (block : List Nat) : Acc :=
  addAcc h (processRounds (schedule block) h)

/-- Modelled from the spec: absorb one input byte.  The byte is appended
to the partial buffer; when the buffer reaches 64 bytes the block is
consumed by the compression function and the buffer is cleared. -/
def absorbStep : Acc × List Nat → Nat → Acc × List Nat
  | (h, buf), b =>
      if (buf ++ [b]).length = 64 then (compress h (buf ++ [b]), [])
      else (h, buf ++ [b])

/-- Modelled from the spec: SHA1_update in the native library.  The data
bytes are fed through the buffer/compression loop and the total length
grows by the number of bytes consumed. -/
def update (s : HashState) (data : List Nat) : HashState :=
  match List.foldl absorbStep (s.h, s.buffer) data with
  | (h, buf) => { h := h, buffer := buf, totalLength := s.totalLength + data.length }

/-- Serialize a 32-bit word as four big-endian bytes. -/
def be32 (n : Nat) : List Nat :=
  [n / 2 ^ 24 % 256, n / 2 ^ 16 % 256, n / 2 ^ 8 % 256, n % 256]

/-- Serialize a 64-bit length field as eight big-endian bytes. -/
def be64 (n : Nat) : List Nat :=
  [n / 2 ^ 56 % 256, n / 2 ^ 48 % 256, n / 2 ^ 40 % 256, n / 2 ^ 32 % 256,
   n / 2 ^ 24 % 256, n / 2 ^ 16 % 256, n / 2 ^ 8 % 256, n % 256]

/-- Modelled from the spec: the number of zero bytes appended after the
0x80 marker so that the padded length is congruent to 56 modulo 64
before the 8-byte length field. -/
def padZeros (bufLen : Nat) : Nat :=
  if bufLen < 56 then 55 - bufLen else 119 - bufLen

/-- Modelled from the spec: the finalization padding appended to a
partial buffer of the given length: a single 0x80 byte, then zero bytes
until the length is congruent to 56 modulo 64, then the 64-bit
big-endian bit length of the whole message. -/
def padBytes (bufLen totalLen : Nat) : List Nat :=
  0x80 :: (List.replicate (padZeros bufLen) 0 ++ be64 (totalLen * 8))

/-- Serialize the five accumulators as concatenated big-endian 32-bit
words, producing exactly 20 bytes. -/
def serialize : Acc → List Nat
  | (h0, h1, h2, h3, h4) => be32 h0 ++ be32 h1 ++ be32 h2 ++ be32 h3 ++ be32 h4

/-- Modelled from the spec: SHA1_digest in the native library.  It works
on a snapshot of the state: the padded tail is one 64-byte block when
the partial buffer plus the 0x80 marker fits before the length field,
and two blocks otherwise; the final accumulators are serialized as 20
bytes.  The live state is not touched. -/
def digest (s : HashState) : List Nat :=
  let padded := s.buffer ++ padBytes s.buffer.length s.totalLength
  let h1 := compress s.h (padded.take 64)
  serialize (if padded.length = 64 then h1 else compress h1 (padded.drop 64))

/-- Modelled from the spec: the digest call as the caller observes it,
a result paired with the state the caller keeps using.  Finalization
operates on a temporary snapshot, so the state component is the input
state itself. -/
def digestOp (s : HashState) : List Nat × HashState := (digest s, s)

/-- Hex character of a nibble, lower case. -/
def hexChar (n : Nat) : Char := Char.ofNat (if n < 10 then 48 + n else 87 + n)

/-- The two lower-case hex characters of one byte, most-significant
nibble first, as produced by the %02x format of the Python source. -/
def byteHex (b : Nat) : List Char := [hexChar (b / 16), hexChar (b % 16)]

/-- SHA1Hash.hexdigest from the source: the lower-case hexadecimal
encoding of digest, two characters per byte, in digest byte order. -/
def hexdigest (s : HashState) : String :=
  String.mk (((digest s).map byteHex).flatten)

/-- SHA1Hash.copy from the source, modelled from the spec for the native
SHA1_copy call: a fresh state holding copies of the accumulators, the
buffer and the total length of the original. -/
def copy (s : HashState) : HashState :=
  { h := s.h, buffer := s.buffer, totalLength := s.totalLength }

/-- An argument crossing the Python API boundary: either a byte string
or an unencoded text string. -/
inductive PyData where
  | bytes : List Nat → PyData
  | str : String → PyData

/-- SHA1Hash.update from the source together with the byte-string check:
expect_byte_string raises a TypeError for non-byte input before any
native call, so the caller keeps the unchanged state; byte input is fed
to the engine. -/
def updateOp (s : HashState) (d : PyData) : Except String Unit × HashState :=
  match d with
  | PyData.bytes bs => (Except.ok (), update s bs)
  | PyData.str _ => (Except.error "TypeError: only byte strings can be passed to C code", s)

/-- SHA1Hash constructor from the source: start from the fresh native
state and forward the optional data argument to update only when it is
truthy, so None and the empty byte string both leave the fresh state. -/
def mkHash (data : Option (List Nat)) : HashState :=
  match data with
  | none => init
  | some d => if d = [] then init else update init d

/-- The module-level new function from the source: it builds a fresh
SHA1Hash and hands the optional data to the constructor. -/
def pynew (data : Option (List Nat)) : HashState := mkHash data

/-- SHA1Hash.digest_size from the source. -/
def digest_size : Nat := 20

/-- SHA1Hash.block_size from the source. -/
def block_size : Nat := 64

/-- SHA1Hash.oid from the source. -/
def oid : String := "1.3.14.3.2.26"

/-- Decode a list of hex characters back to bytes, two characters per
byte. -/
def hexVal (c : Char) : Nat := if 97 ≤ c.toNat then c.toNat - 87 else c.toNat - 48

/-- Decode a hex character list back into the byte list it encodes. -/
def hexDecode : List Char → List Nat
  | c1 :: c2 :: rest => (hexVal c1 * 16 + hexVal c2) :: hexDecode rest
  | _ => []

/-- Hash a whole message from the fresh state and return its hex digest. -/
def sha1hex (msg : List Nat) : String := hexdigest (update init msg)

/-- A block of 64 bytes 0x61, the repeating unit of the million-a test
vector. -/
def aBlock : List Nat := List.replicate 64 97

/-- Kernel-evaluation form of the rounds of group 1: raw primitive
calls, structurally recursive over the schedule words. -/
def g1 (ws : List Nat) : Nat → Nat → Nat → Nat → Nat → Acc :=
  List.rec (motive := fun _ => Nat → Nat → Nat → Nat → Nat → Acc)
    (fun a b c d e => (a, b, c, d, e))
    (fun w _ ih a b c d e =>
      ih (Nat.mod (Nat.add (Nat.add (Nat.add (Nat.add
            (Nat.mod (Nat.lor (Nat.shiftLeft a 5) (Nat.shiftRight a 27)) 4294967296)
            (Nat.lor (Nat.land b c) (Nat.land (Nat.xor b 4294967295) d))) e) w)
            1518500249) 4294967296)
        a (Nat.mod (Nat.lor (Nat.shiftLeft b 30) (Nat.shiftRight b 2)) 4294967296) c d)
    ws

/-- Kernel-evaluation form of the rounds of group 2. -/
def g2 (ws : List Nat) : Nat → Nat → Nat → Nat → Nat → Acc :=
  List.rec (motive := fun _ => Nat → Nat → Nat → Nat → Nat → Acc)
    (fun a b c d e => (a, b, c, d, e))
    (fun w _ ih a b c d e =>
      ih (Nat.mod (Nat.add (Nat.add (Nat.add (Nat.add
            (Nat.mod (Nat.lor (Nat.shiftLeft a 5) (Nat.shiftRight a 27)) 4294967296)
            (Nat.xor (Nat.xor b c) d)) e) w)
            1859775393) 4294967296)
        a (Nat.mod (Nat.lor (Nat.shiftLeft b 30) (Nat.shiftRight b 2)) 4294967296) c d)
    ws

/-- Kernel-evaluation form of the rounds of group 3. -/
def g3 (ws : List Nat) : Nat → Nat → Nat → Nat → Nat → Acc :=
  List.rec (motive := fun _ => Nat → Nat → Nat → Nat → Nat → Acc)
    (fun a b c d e => (a, b, c, d, e))
    (fun w _ ih a b c d e =>
      ih (Nat.mod (Nat.add (Nat.add (Nat.add (Nat.add
            (Nat.mod (Nat.lor (Nat.shiftLeft a 5) (Nat.shiftRight a 27)) 4294967296)
            (Nat.lor (Nat.lor (Nat.land b c) (Nat.land b d)) (Nat.land c d))) e) w)
            2400959708) 4294967296)
        a (Nat.mod (Nat.lor (Nat.shiftLeft b 30) (Nat.shiftRight b 2)) 4294967296) c d)
    ws

/-- Kernel-evaluation form of the rounds of group 4. -/
def g4 (ws : List Nat) : Nat → Nat → Nat → Nat → Nat → Acc :=
  List.rec (motive := fun _ => Nat → Nat → Nat → Nat → Nat → Acc)
    (fun a b c d e => (a, b, c, d, e))
    (fun w _ ih a b c d e =>
      ih (Nat.mod (Nat.add (Nat.add (Nat.add (Nat.add
            (Nat.mod (Nat.lor (Nat.shiftLeft a 5) (Nat.shiftRight a 27)) 4294967296)
            (Nat.xor (Nat.xor b c) d)) e) w)
            3395469782) 4294967296)
        a (Nat.mod (Nat.lor (Nat.shiftLeft b 30) (Nat.shiftRight b 2)) 4294967296) c d)
    ws

/-- The precomputed 80-word schedule of aBlock. -/
def aSched : List Nat := [1633771873, 1633771873, 1633771873, 1633771873, 1633771873, 1633771873, 1633771873, 1633771873, 1633771873, 1633771873, 1633771873, 1633771873, 1633771873, 1633771873, 1633771873, 1633771873, 0, 0, 0, 3267543746, 3267543746, 3267543746, 1195853639, 1195853639, 2240120197, 2391707278, 2391707278, 2391707278, 2560137368, 2560137368, 1364283729, 2105376125, 976894522, 976894522, 1650614882, 1768515945, 1313754702, 4278124286, 4126537205, 4126537205, 2678038431, 2678038431, 50529027, 3250700737, 808464432, 808464432, 3200171710, 84215045, 4025479151, 3840206052, 1414812756, 1936946035, 3739147998, 3739147998, 1330597711, 1667457891, 1532713819, 3958107115, 134744072, 3014898611, 2004318071, 3351758791, 1532713819, 3958107115, 1313754702, 1313754702, 3537031890, 2694881440, 1364283729, 1364283729, 3755991007, 1684300900, 2560137368, 2475922323, 2475922323, 2560137368, 3722304989, 3722304989, 2762253476, 943208504]

/-- Kernel-evaluation form of the accumulator addition. -/
def addFast : Acc → Acc → Acc
  | (h0, h1, h2, h3, h4), (a, b, c, d, e) =>
      (Nat.mod (Nat.add h0 a) 4294967296, Nat.mod (Nat.add h1 b) 4294967296,
       Nat.mod (Nat.add h2 c) 4294967296, Nat.mod (Nat.add h3 d) 4294967296,
       Nat.mod (Nat.add h4 e) 4294967296)

/-- Feed an accumulator tuple into a curried round-group function. -/
def gAcc (g : List Nat → Nat → Nat → Nat → Nat → Nat → Acc) (ws : List Nat) : Acc → Acc
  | (a, b, c, d, e) => g ws a b c d e

/-- Kernel-evaluation form of one compression of aBlock. -/
def compressFast (h : Acc) : Acc :=
  addFast h (gAcc g4 (aSched.drop 60) (gAcc g3 ((aSched.drop 40).take 20)
    (gAcc g2 ((aSched.drop 20).take 20) (gAcc g1 (aSched.take 20) h))))

/-- One compression of the fixed block aBlock. -/
def compressAB (t : Acc) : Acc := compress t aBlock

/-- Iterate a step function on the accumulators, spelled with Nat.rec so
that its unfolding equations hold by rfl. -/
def iterF (g : Acc → Acc) (k : Nat) (h : Acc) : Acc :=
  Nat.rec (motive := fun _ => Acc → Acc) (fun t => t)
    (fun _ ih t => ih (g t)) k h

/-- Iterated compression of aBlock, the reasoning form. -/
def iterC (k : Nat) (h : Acc) : Acc := iterF compressAB k h

/-- Force an accumulator tuple to literal components through Nat.ble
before passing it on; behaviourally the identity. -/
def forceStep (ih : Acc → Acc) (s : Acc) : Acc :=
  Bool.rec (ih s) (ih s)
    (Nat.ble (Nat.add (Nat.add (Nat.add (Nat.add s.1 s.2.1) s.2.2.1) s.2.2.2.1) s.2.2.2.2) 0)

/-- Iterate a step function with forcing between steps, spelled with
Nat.rec so that its unfolding equations hold by rfl. -/
def iterG (g : Acc → Acc) (k : Nat) (h : Acc) : Acc :=
  Nat.rec (motive := fun _ => Acc → Acc) (fun t => t)
    (fun _ ih s => forceStep ih (g s)) k h

/-- Iterated compression of aBlock, the kernel-evaluation form: the
recursion forces each intermediate accumulator to literals before
recursing, which keeps kernel reduction of deep iterations in bounded
stack space. -/
def iterA (k : Nat) (h : Acc) : Acc := iterG compressFast k h

lemma groupRounds_nil (fr : Nat → Nat → Nat → Nat) (kc : Nat) (s : Acc) :
    groupRounds fr kc [] s = s := rfl

lemma groupRounds_cons (fr : Nat → Nat → Nat → Nat) (kc w : Nat) (ws : List Nat) (s : Acc) :
    groupRounds fr kc (w :: ws) s = groupRounds fr kc ws (roundStep fr kc w s) := rfl

lemma roundStep_mk (fr : Nat → Nat → Nat → Nat) (kc w a b c d e : Nat) :
    roundStep fr kc w (a, b, c, d, e)
      = ((rotl 5 a + fr b c d + e + w + kc) % 2 ^ 32, a, rotl 30 b, c, d) := rfl

lemma g1_eq (ws : List Nat) : ∀ a b c d e : Nat,
    g1 ws a b c d e = groupRounds f1 0x5A827999 ws (a, b, c, d, e) := by
  induction ws with
  | nil => intro a b c d e; rw [groupRounds_nil]; exact rfl
  | cons w ws ih =>
      intro a b c d e
      rw [groupRounds_cons, roundStep_mk, ← ih]
      exact rfl

lemma g2_eq (ws : List Nat) : ∀ a b c d e : Nat,
    g2 ws a b c d e = groupRounds f2 0x6ED9EBA1 ws (a, b, c, d, e) := by
  induction ws with
  | nil => intro a b c d e; rw [groupRounds_nil]; exact rfl
  | cons w ws ih =>
      intro a b c d e
      rw [groupRounds_cons, roundStep_mk, ← ih]
      exact rfl

lemma g3_eq (ws : List Nat) : ∀ a b c d e : Nat,
    g3 ws a b c d e = groupRounds f3 0x8F1BBCDC ws (a, b, c, d, e) := by
  induction ws with
  | nil => intro a b c d e; rw [groupRounds_nil]; exact rfl
  | cons w ws ih =>
      intro a b c d e
      rw [groupRounds_cons, roundStep_mk, ← ih]
      exact rfl

lemma g4_eq (ws : List Nat) : ∀ a b c d e : Nat,
    g4 ws a b c d e = groupRounds f4 0xCA62C1D6 ws (a, b, c, d, e) := by
  induction ws with
  | nil => intro a b c d e; rw [groupRounds_nil]; exact rfl
  | cons w ws ih =>
      intro a b c d e
      rw [groupRounds_cons, roundStep_mk, ← ih]
      exact rfl

lemma sched_aBlock : schedule aBlock = aSched := by decide!

lemma addFast_eq : ∀ x y : Acc, addFast x y = addAcc x y := by
  rintro ⟨h0, h1, h2, h3, h4⟩ ⟨a, b, c, d, e⟩
  exact rfl

lemma gAcc_g1 (ws : List Nat) : ∀ s : Acc, gAcc g1 ws s = groupRounds f1 0x5A827999 ws s := by
  rintro ⟨a, b, c, d, e⟩
  exact g1_eq ws a b c d e

lemma gAcc_g2 (ws : List Nat) : ∀ s : Acc, gAcc g2 ws s = groupRounds f2 0x6ED9EBA1 ws s := by
  rintro ⟨a, b, c, d, e⟩
  exact g2_eq ws a b c d e

lemma gAcc_g3 (ws : List Nat) : ∀ s : Acc, gAcc g3 ws s = groupRounds f3 0x8F1BBCDC ws s := by
  rintro ⟨a, b, c, d, e⟩
  exact g3_eq ws a b c d e

lemma gAcc_g4 (ws : List Nat) : ∀ s : Acc, gAcc g4 ws s = groupRounds f4 0xCA62C1D6 ws s := by
  rintro ⟨a, b, c, d, e⟩
  exact g4_eq ws a b c d e

lemma compressFast_eq (h : Acc) : compressFast h = compress h aBlock := by
  show addFast h (gAcc g4 (aSched.drop 60) (gAcc g3 ((aSched.drop 40).take 20)
      (gAcc g2 ((aSched.drop 20).take 20) (gAcc g1 (aSched.take 20) h))))
    = compress h aBlock
  rw [addFast_eq, gAcc_g1, gAcc_g2, gAcc_g3, gAcc_g4]
  show _ = addAcc h (processRounds (schedule aBlock) h)
  rw [sched_aBlock]
  exact rfl

lemma bool_rec_self (x : Acc) (b : Bool) : Bool.rec (motive := fun _ => Acc) x x b = x := by
  cases b
  · exact rfl
  · exact rfl

lemma forceStep_eq (ih : Acc → Acc) (s : Acc) : forceStep ih s = ih s :=
  bool_rec_self (ih s)
    (Nat.ble (Nat.add (Nat.add (Nat.add (Nat.add s.1 s.2.1) s.2.2.1) s.2.2.2.1) s.2.2.2.2) 0)

lemma compressAB_unfold (t : Acc) : compressAB t = compress t aBlock := rfl

lemma compressFast_AB (h : Acc) : compressFast h = compressAB h :=
  (compressFast_eq h).trans (compressAB_unfold h).symm

lemma iterF_succ (g : Acc → Acc) (k : Nat) (h : Acc) : iterF g (k + 1) h = iterF g k (g h) := rfl

lemma iterG_succ (g : Acc → Acc) (k : Nat) (h : Acc) :
    iterG g (k + 1) h = forceStep (iterG g k) (g h) := rfl

lemma iterC_succ (k : Nat) (h : Acc) : iterC (k + 1) h = iterC k (compressAB h) :=
  iterF_succ compressAB k h

lemma iterA_eq (k : Nat) : ∀ h : Acc, iterA k h = iterC k h := by
  induction k with
  | zero => intro h; exact rfl
  | succ n ih =>
      intro h
      have s1 : iterA (n + 1) h = forceStep (iterA n) (compressFast h) :=
        iterG_succ compressFast n h
      rw [s1, forceStep_eq, compressFast_AB, ih]
      exact (iterC_succ n h).symm

set_option maxRecDepth 1000000 in
lemma iterA_c1 : iterA 3125 (1732584193, 4023233417, 2562383102, 271733878, 3285377520)
    = (1543656767, 2251408121, 4247618056, 4117055894, 3977180739) := by decide!

set_option maxRecDepth 1000000 in
lemma iterA_c2 : iterA 3125 (1543656767, 2251408121, 4247618056, 4117055894, 3977180739)
    = (1882013764, 2143893764, 2979350650, 3850471338, 1318387388) := by decide!

set_option maxRecDepth 1000000 in
lemma iterA_c3 : iterA 3125 (1882013764, 2143893764, 2979350650, 3850471338, 1318387388)
    = (3279703266, 3670769863, 3408221997, 3730904313, 1864669844) := by decide!

set_option maxRecDepth 1000000 in
lemma iterA_c4 : iterA 3125 (3279703266, 3670769863, 3408221997, 3730904313, 1864669844)
    = (2560686508, 2864810195, 2705390723, 2896164012, 2354954463) := by decide!

set_option maxRecDepth 1000000 in
lemma iterA_c5 : iterA 3125 (2560686508, 2864810195, 2705390723, 2896164012, 2354954463)
    = (2689137366, 452846373, 4260416976, 1315111631, 1780696285) := by decide!

lemma iterC_add : ∀ (a b : Nat) (h : Acc), iterC (a + b) h = iterC b (iterC a h) := by
  intro a
  induction a with
  | zero => intro b h; rw [Nat.zero_add]; exact rfl
  | succ n ih =>
      intro b h
      rw [show n + 1 + b = (n + b) + 1 from by omega]
      rw [iterC_succ]
      rw [ih b (compressAB h)]
      rw [← iterC_succ]

lemma iterC_15625 : iterC 15625 (1732584193, 4023233417, 2562383102, 271733878, 3285377520) = (2689137366, 452846373, 4260416976, 1315111631, 1780696285) := by
  have b1 : iterC 3125 (1732584193, 4023233417, 2562383102, 271733878, 3285377520) = (1543656767, 2251408121, 4247618056, 4117055894, 3977180739) :=
    (iterA_eq 3125 _).symm.trans iterA_c1
  have b2 : iterC 6250 (1732584193, 4023233417, 2562383102, 271733878, 3285377520) = (1882013764, 2143893764, 2979350650, 3850471338, 1318387388) := by
    rw [show (6250 : Nat) = 3125 + 3125 from by norm_num, iterC_add, b1]
    exact (iterA_eq 3125 _).symm.trans iterA_c2
  have b3 : iterC 9375 (1732584193, 4023233417, 2562383102, 271733878, 3285377520) = (3279703266, 3670769863, 3408221997, 3730904313, 1864669844) := by
    rw [show (9375 : Nat) = 6250 + 3125 from by norm_num, iterC_add, b2]
    exact (iterA_eq 3125 _).symm.trans iterA_c3
  have b4 : iterC 12500 (1732584193, 4023233417, 2562383102, 271733878, 3285377520) = (2560686508, 2864810195, 2705390723, 2896164012, 2354954463) := by
    rw [show (12500 : Nat) = 9375 + 3125 from by norm_num, iterC_add, b3]
    exact (iterA_eq 3125 _).symm.trans iterA_c4
  have b5 : iterC 15625 (1732584193, 4023233417, 2562383102, 271733878, 3285377520) = (2689137366, 452846373, 4260416976, 1315111631, 1780696285) := by
    rw [show (15625 : Nat) = 12500 + 3125 from by norm_num, iterC_add, b4]
    exact (iterA_eq 3125 _).symm.trans iterA_c5
  exact b5

lemma absorbStep_full (h : Acc) (buf : List Nat) (b : Nat) (hb : (buf ++ [b]).length = 64) :
    absorbStep (h, buf) b = (compress h (buf ++ [b]), []) := by
  show (if (buf ++ [b]).length = 64 then (compress h (buf ++ [b]), ([] : List Nat))
        else (h, buf ++ [b])) = (compress h (buf ++ [b]), [])
  rw [if_pos hb]

lemma absorbStep_small (h : Acc) (buf : List Nat) (b : Nat) (hb : (buf ++ [b]).length ≠ 64) :
    absorbStep (h, buf) b = (h, buf ++ [b]) := by
  show (if (buf ++ [b]).length = 64 then (compress h (buf ++ [b]), ([] : List Nat))
        else (h, buf ++ [b])) = (h, buf ++ [b])
  rw [if_neg hb]

lemma absorb_fill : ∀ (n : Nat) (buf : List Nat) (h : Acc), buf.length + n = 64 → 1 ≤ n →
    List.foldl absorbStep (h, buf) (List.replicate n 97)
      = (compress h (buf ++ List.replicate n 97), []) := by
  intro n
  induction n with
  | zero => intro buf h hlen hn; omega
  | succ m ih =>
      intro buf h hlen hn
      rw [List.replicate_succ, List.foldl_cons]
      rcases Nat.eq_zero_or_pos m with hm | hm
      · subst hm
        have hb : (buf ++ [97]).length = 64 := by
          simp only [List.length_append, List.length_singleton]; omega
        rw [absorbStep_full h buf 97 hb]
        rw [List.replicate_zero, List.foldl_nil]
      · have hb : (buf ++ [97]).length ≠ 64 := by
          simp only [List.length_append, List.length_singleton]; omega
        rw [absorbStep_small h buf 97 hb]
        have hlen2 : (buf ++ [97]).length + m = 64 := by
          simp only [List.length_append, List.length_singleton]; omega
        rw [ih (buf ++ [97]) h hlen2 hm]
        rw [List.append_assoc]
        simp only [List.singleton_append, List.replicate_succ]

lemma foldl_blocks : ∀ (k : Nat) (h : Acc),
    List.foldl absorbStep (h, []) (List.replicate (64 * k) 97) = (iterC k h, []) := by
  intro k
  induction k with
  | zero => intro h; exact rfl
  | succ m ih =>
      intro h
      have e1 : 64 * (m + 1) = 64 + 64 * m := by omega
      rw [e1, List.replicate_add, List.foldl_append]
      rw [absorb_fill 64 [] h (by simp) (by omega)]
      rw [List.nil_append]
      rw [show List.replicate 64 97 = aBlock from rfl]
      rw [ih (compress h aBlock)]
      rw [iterC_succ, compressAB_unfold]

lemma update_def2 (s : HashState) (data : List Nat) :
    update s data = { h := (List.foldl absorbStep (s.h, s.buffer) data).1,
                      buffer := (List.foldl absorbStep (s.h, s.buffer) data).2,
                      totalLength := s.totalLength + data.length } := by
  simp only [update]

lemma update_nil (s : HashState) : update s [] = s := rfl

lemma update_rep64 (k : Nat) (s : HashState) (hbuf : s.buffer = []) :
    update s (List.replicate (64 * k) 97)
      = { h := iterC k s.h, buffer := [], totalLength := s.totalLength + 64 * k } := by
  rw [update_def2, hbuf, foldl_blocks, List.length_replicate]

lemma update_append (s : HashState) (A B : List Nat) :
    update (update s A) B = update s (A ++ B) := by
  rw [update_def2 s A]
  rw [update_def2]
  rw [update_def2 s (A ++ B)]
  dsimp only
  rw [Prod.mk.eta, ← List.foldl_append, List.length_append, Nat.add_assoc]

lemma serialize_length (t : Acc) : (serialize t).length = 20 := by
  rcases t with ⟨a, b, c, d, e⟩
  rfl

lemma digest_len (s : HashState) : (digest s).length = 20 := by
  simp only [digest]
  exact serialize_length _

/-- C1: from the fresh state, the digest of the empty input, of the three
bytes abc, and of one million bytes 0x61 match the published SHA-1 test
vectors byte-exactly. -/
theorem C1_test_vectors :
    sha1hex [] = "da39a3ee5e6b4b0d3255bfef95601890afd80709" ∧
    sha1hex [97, 98, 99] = "a9993e364706816aba3e25717850c26c9cd0d89d" ∧
    sha1hex (List.replicate 1000000 97) = "34aa973cd4c4daa4f61eeb2bdbad27316534016f" := by
  refine ⟨by decide!, by decide!, ?_⟩
  show hexdigest (update init (List.replicate 1000000 97)) = _
  rw [show (1000000 : Nat) = 64 * 15625 from by norm_num]
  rw [update_rep64 15625 init rfl]
  rw [show init.h = (0x67452301, 0xEFCDAB89, 0x98BADCFE, 0x10325476, 0xC3D2E1F0) from rfl]
  rw [iterC_15625]
  decide!

/-- C2: feeding a message in two update calls equals one concatenated
update call, every way of splitting a message into chunks gives the same
final state, and a zero-length update is the identity. -/
theorem C2_update_split :
    (∀ (s : HashState) (A B : List Nat), update (update s A) B = update s (A ++ B)) ∧
    (∀ (s : HashState) (chunks : List (List Nat)),
      List.foldl update s chunks = update s chunks.flatten) ∧
    (∀ s : HashState, update s [] = s) := by
  refine ⟨update_append, ?_, update_nil⟩
  intro s chunks
  induction chunks generalizing s with
  | nil => exact (update_nil s).symm
  | cons c cs ih =>
      rw [List.foldl_cons, ih (update s c), update_append, List.flatten_cons]

/-- C3: digest does not mutate the caller-visible state: the state after
the call is the input state, a second digest returns the same bytes, and
an update after a digest continues the original stream. -/
theorem C3_digest_no_mutation :
    ∀ s : HashState, (digestOp s).2 = s ∧
      (digestOp (digestOp s).2).1 = (digestOp s).1 ∧
      (∀ d : List Nat, update (digestOp s).2 d = update s d) :=
  fun s => ⟨rfl, rfl, fun d => rfl⟩

/-- C4: copy returns a clone with the same accumulators, buffer and
total length whose behaviour is indistinguishable from the original, and
the original evolves independently of the clone. -/
theorem C4_copy_clone :
    ∀ s : HashState, copy s = s ∧
      (∀ d : List Nat, update (copy s) d = update s d) ∧
      (∀ d : List Nat, digest (update (copy s) d) = digest (update s d)) ∧
      digest (copy s) = digest s :=
  fun s => ⟨rfl, fun d => rfl, fun d => rfl, rfl⟩

/-- C7: the interface exposes digest_size 20, block_size 64 and the OID
string 1.3.14.3.2.26, and digest always returns exactly 20 bytes. -/
theorem C7_interface_constants :
    digest_size = 20 ∧ block_size = 64 ∧ oid = "1.3.14.3.2.26" ∧
    ∀ s : HashState, (digest s).length = 20 :=
  ⟨rfl, rfl, rfl, digest_len⟩

/-- C9: a non-byte argument to update fails with the invalid-argument
error and leaves the state untouched, while byte input is accepted. -/
theorem C9_update_type_check :
    ∀ (s : HashState) (t : String),
      (updateOp s (PyData.str t)).1
        = Except.error "TypeError: only byte strings can be passed to C code" ∧
      (updateOp s (PyData.str t)).2 = s ∧
      digest (updateOp s (PyData.str t)).2 = digest s ∧
      ∀ bs : List Nat, updateOp s (PyData.bytes bs) = (Except.ok (), update s bs) :=
  fun s t => ⟨rfl, rfl, rfl, fun bs => rfl⟩

/-- C10: new with data behaves as new followed by update, and None or an
empty byte string leave exactly the fresh initial state. -/
theorem C10_constructor_forwarding :
    (∀ d : List Nat, pynew (some d) = update init d) ∧
    pynew none = init ∧ pynew (some []) = init ∧
    digest (pynew (some [])) = digest (pynew none) := by
  refine ⟨?_, rfl, rfl, rfl⟩
  intro d
  by_cases hd : d = []
  · subst hd
    rw [update_nil]
    exact rfl
  · have h1 : pynew (some d) = if d = [] then init else update init d := rfl
    rw [h1, if_neg hd]

/-- C5: finalization pads with a 0x80 byte, zeros to 56 mod 64, and the
64-bit big-endian bit length, making the padded tail one block when the
buffer is short and two blocks otherwise, serializes 20 bytes, and the
digests at the block-boundary message lengths are all correct. -/
theorem C5_finalization :
    (∀ s : HashState, s.buffer.length ≤ 63 →
      padBytes s.buffer.length s.totalLength
          = 0x80 :: (List.replicate (padZeros s.buffer.length) 0 ++ be64 (s.totalLength * 8)) ∧
      (s.buffer.length + 1 + padZeros s.buffer.length) % 64 = 56 ∧
      (s.buffer ++ padBytes s.buffer.length s.totalLength).length % 64 = 0 ∧
      (s.buffer ++ padBytes s.buffer.length s.totalLength).length
          = (if s.buffer.length < 56 then 64 else 128) ∧
      (digest s).length = 20) ∧
    sha1hex (List.replicate 0 97) = "da39a3ee5e6b4b0d3255bfef95601890afd80709" ∧
    sha1hex (List.replicate 55 97) = "c1c8bbdc22796e28c0e15163d20899b65621d65a" ∧
    sha1hex (List.replicate 56 97) = "c2db330f6083854c99d4b5bfb6e8f29f201be699" ∧
    sha1hex (List.replicate 63 97) = "03f09f5b158a7a8cdad920bddc29b81c18a551f5" ∧
    sha1hex (List.replicate 64 97) = "0098ba824b5c16427bd7a1122a5a442a25ec644d" ∧
    sha1hex (List.replicate 65 97) = "11655326c708d70319be2610e8a57d9a5b959d3b" ∧
    sha1hex (List.replicate 119 97) = "ee971065aaa017e0632a8ca6c77bb3bf8b1dfc56" ∧
    sha1hex (List.replicate 120 97) = "f34c1488385346a55709ba056ddd08280dd4c6d6" ∧
    sha1hex (List.replicate 121 97) = "fa6b5a6f8ac27182f838fe7841ec6d2aef3ade29" := by
  refine ⟨?_, by decide!, by decide!, by decide!, by decide!, by decide!, by decide!,
    by decide!, by decide!, by decide!⟩
  intro s hs
  have hz : padZeros s.buffer.length
      = if s.buffer.length < 56 then 55 - s.buffer.length else 119 - s.buffer.length := rfl
  have hpl : (padBytes s.buffer.length s.totalLength).length = 9 + padZeros s.buffer.length := by
    simp only [padBytes, List.length_cons, List.length_append, List.length_replicate,
      show (be64 (s.totalLength * 8)).length = 8 from rfl]
    omega
  refine ⟨rfl, ?_, ?_, ?_, digest_len s⟩
  · rw [hz]; split_ifs with h56 <;> omega
  · rw [List.length_append, hpl, hz]; split_ifs with h56 <;> omega
  · rw [List.length_append, hpl, hz]; split_ifs with h56 <;> omega

theorem C5_finalization_witness :
    init.buffer.length ≤ 63 ∧
    (init.buffer ++ padBytes init.buffer.length init.totalLength).length % 64 = 0 :=
  ⟨by decide, (C5_finalization.1 init (by decide)).2.2.1⟩

lemma getD_lt (l : List Nat) (n : Nat) (hn : n < l.length) : l.getD n 0 = l[n] := by
  rw [List.getD_eq_getElem?_getD, List.getElem?_eq_getElem hn, Option.getD_some]

lemma getD_app_left (l l2 : List Nat) (n : Nat) (hn : n < l.length) :
    (l ++ l2).getD n 0 = l.getD n 0 := by
  have h2 : n < (l ++ l2).length := by rw [List.length_append]; omega
  rw [getD_lt _ _ h2, getD_lt _ _ hn]
  exact List.getElem_append_left hn

lemma getD_concat_len (l : List Nat) (w : Nat) : (l ++ [w]).getD l.length 0 = w := by
  have h2 : l.length < (l ++ [w]).length := by
    rw [List.length_append]; simp
  rw [getD_lt _ _ h2]
  exact List.getElem_concat_length l w l.length rfl h2

lemma getD_rev (l : List Nat) (j : Nat) (hj : j < l.length) :
    l.reverse.getD (l.length - 1 - j) 0 = l.getD j 0 := by
  have h1 : l.length - 1 - j < l.reverse.length := by rw [List.length_reverse]; omega
  rw [getD_lt _ _ h1, getD_lt _ _ hj, List.getElem_reverse]
  congr 1
  omega

lemma extendSchedule_len : ∀ (fuel : Nat) (acc : List Nat),
    (extendSchedule fuel acc).length = fuel + acc.length := by
  intro fuel
  induction fuel with
  | zero => intro acc; simp [extendSchedule]
  | succ f ih =>
      intro acc
      simp only [extendSchedule]
      rw [ih (schedStep acc)]
      simp only [schedStep, List.length_cons]
      omega

lemma extendSchedule_front : ∀ (fuel : Nat) (acc : List Nat) (i : Nat), i < acc.length →
    (extendSchedule fuel acc).getD i 0 = acc.reverse.getD i 0 := by
  intro fuel
  induction fuel with
  | zero => intro acc i hi; simp [extendSchedule]
  | succ f ih =>
      intro acc i hi
      simp only [extendSchedule]
      rw [ih (schedStep acc) i (by simp only [schedStep, List.length_cons]; omega)]
      simp only [schedStep, List.reverse_cons]
      exact getD_app_left _ _ i (by rw [List.length_reverse]; omega)

lemma extendSchedule_recur : ∀ (fuel : Nat) (acc : List Nat), 16 ≤ acc.length →
    schedRecur acc.reverse → schedRecur (extendSchedule fuel acc) := by
  intro fuel
  induction fuel with
  | zero =>
      intro acc h16 hrec
      simp only [extendSchedule]
      exact hrec
  | succ f ih =>
      intro acc h16 hrec
      simp only [extendSchedule]
      apply ih (schedStep acc) (by simp only [schedStep, List.length_cons]; omega)
      intro i hi16 hilen
      simp only [schedStep, List.reverse_cons] at hilen ⊢
      have hib : i < acc.length + 1 := by
        simpa [List.length_append, List.length_reverse] using hilen
      rcases Nat.lt_or_ge i acc.length with hlt | hge
      · rw [getD_app_left _ _ i (by rw [List.length_reverse]; omega),
            getD_app_left _ _ (i - 3) (by rw [List.length_reverse]; omega),
            getD_app_left _ _ (i - 8) (by rw [List.length_reverse]; omega),
            getD_app_left _ _ (i - 14) (by rw [List.length_reverse]; omega),
            getD_app_left _ _ (i - 16) (by rw [List.length_reverse]; omega)]
        exact hrec i hi16 (by rw [List.length_reverse]; omega)
      · have hieq : i = acc.length := by omega
        subst hieq
        have e0 : (acc.reverse ++ [rotl 1 (acc.getD 2 0 ^^^ acc.getD 7 0 ^^^
            acc.getD 13 0 ^^^ acc.getD 15 0)]).getD acc.length 0
            = rotl 1 (acc.getD 2 0 ^^^ acc.getD 7 0 ^^^ acc.getD 13 0 ^^^ acc.getD 15 0) := by
          have h := getD_concat_len acc.reverse
            (rotl 1 (acc.getD 2 0 ^^^ acc.getD 7 0 ^^^ acc.getD 13 0 ^^^ acc.getD 15 0))
          rwa [List.length_reverse] at h
        rw [e0]
        rw [getD_app_left _ _ (acc.length - 3) (by rw [List.length_reverse]; omega),
            getD_app_left _ _ (acc.length - 8) (by rw [List.length_reverse]; omega),
            getD_app_left _ _ (acc.length - 14) (by rw [List.length_reverse]; omega),
            getD_app_left _ _ (acc.length - 16) (by rw [List.length_reverse]; omega)]
        have e3 : acc.reverse.getD (acc.length - 3) 0 = acc.getD 2 0 := by
          have h := getD_rev acc 2 (by omega)
          rwa [show acc.length - 1 - 2 = acc.length - 3 from by omega] at h
        have e8 : acc.reverse.getD (acc.length - 8) 0 = acc.getD 7 0 := by
          have h := getD_rev acc 7 (by omega)
          rwa [show acc.length - 1 - 7 = acc.length - 8 from by omega] at h
        have e14 : acc.reverse.getD (acc.length - 14) 0 = acc.getD 13 0 := by
          have h := getD_rev acc 13 (by omega)
          rwa [show acc.length - 1 - 13 = acc.length - 14 from by omega] at h
        have e16 : acc.reverse.getD (acc.length - 16) 0 = acc.getD 15 0 := by
          have h := getD_rev acc 15 (by omega)
          rwa [show acc.length - 1 - 15 = acc.length - 16 from by omega] at h
        rw [e3, e8, e14, e16]

lemma bytesToWords_len : ∀ (n : Nat) (l : List Nat), l.length = 4 * n →
    (bytesToWords l).length = n := by
  intro n
  induction n with
  | zero =>
      intro l hl
      have hnil : l = [] := List.eq_nil_of_length_eq_zero (by omega)
      subst hnil
      rfl
  | succ m ih =>
      intro l hl
      rcases l with _ | ⟨b0, _ | ⟨b1, _ | ⟨b2, _ | ⟨b3, rest⟩⟩⟩⟩
      · simp at hl
      · simp at hl; omega
      · simp at hl; omega
      · simp at hl; omega
      · simp only [bytesToWords, List.length_cons]
        rw [ih rest (by simp only [List.length_cons] at hl; omega)]

/-- C6: the compression function follows the standard SHA-1 structure:
the fixed initial accumulators, the four round functions and constants
in their four groups of 20, the register feed of each round, the final
accumulator addition, and the 80-word schedule whose first 16 words are
the big-endian block words and whose later words obey the rotate-XOR
recurrence. -/
theorem C6_compression_structure :
    init.h = (0x67452301, 0xEFCDAB89, 0x98BADCFE, 0x10325476, 0xC3D2E1F0) ∧
    (∀ b c d : Nat, f1 b c d = (b &&& c) ||| ((b ^^^ 0xFFFFFFFF) &&& d)) ∧
    (∀ b c d : Nat, f2 b c d = b ^^^ c ^^^ d) ∧
    (∀ b c d : Nat, f3 b c d = (b &&& c) ||| (b &&& d) ||| (c &&& d)) ∧
    (∀ b c d : Nat, f4 b c d = b ^^^ c ^^^ d) ∧
    (∀ (fr : Nat → Nat → Nat → Nat) (kc w a b c d e : Nat),
      roundStep fr kc w (a, b, c, d, e)
        = ((rotl 5 a + fr b c d + e + w + kc) % 2 ^ 32, a, rotl 30 b, c, d)) ∧
    (∀ (ws : List Nat) (s : Acc), processRounds ws s
        = groupRounds f4 0xCA62C1D6 (ws.drop 60)
            (groupRounds f3 0x8F1BBCDC ((ws.drop 40).take 20)
              (groupRounds f2 0x6ED9EBA1 ((ws.drop 20).take 20)
                (groupRounds f1 0x5A827999 (ws.take 20) s)))) ∧
    (∀ (h : Acc) (block : List Nat),
      compress h block = addAcc h (processRounds (schedule block) h)) ∧
    (∀ block : List Nat, block.length = 64 →
      (schedule block).length = 80 ∧
      (∀ i : Nat, i < 16 → (schedule block).getD i 0 = (bytesToWords block).getD i 0) ∧
      schedRecur (schedule block)) := by
  refine ⟨rfl, fun b c d => rfl, fun b c d => rfl, fun b c d => rfl, fun b c d => rfl,
    roundStep_mk, fun ws s => rfl, fun h block => rfl, ?_⟩
  intro block hb
  have hw : (bytesToWords block).length = 16 := bytesToWords_len 16 block (by omega)
  have hlen : (schedule block).length = 80 := by
    show (extendSchedule 64 (bytesToWords block).reverse).length = 80
    rw [extendSchedule_len, List.length_reverse, hw]
  refine ⟨hlen, ?_, ?_⟩
  · intro i hi
    show (extendSchedule 64 (bytesToWords block).reverse).getD i 0 = _
    rw [extendSchedule_front 64 _ i (by rw [List.length_reverse, hw]; omega)]
    rw [List.reverse_reverse]
  · show schedRecur (extendSchedule 64 (bytesToWords block).reverse)
    apply extendSchedule_recur 64 _ (by rw [List.length_reverse, hw])
    intro i hi16 hilen
    rw [List.reverse_reverse] at hilen
    rw [hw] at hilen
    omega

theorem C6_witness : aBlock.length = 64 ∧ (schedule aBlock).length = 80 :=
  ⟨by decide, (C6_compression_structure.2.2.2.2.2.2.2.2 aBlock (by decide)).1⟩

lemma hexChar_mem_alphabet : ∀ m : Nat, m < 16 → hexChar m ∈ "0123456789abcdef".data := by
  decide

lemma hexVal_hexChar : ∀ m : Nat, m < 16 → hexVal (hexChar m) = m := by
  decide

lemma be32_lt (n : Nat) : ∀ x ∈ be32 n, x < 256 := by
  intro x hx
  simp only [be32, List.mem_cons, List.not_mem_nil, or_false] at hx
  rcases hx with rfl | rfl | rfl | rfl <;> exact Nat.mod_lt _ (by norm_num)

lemma serialize_lt (t : Acc) : ∀ x ∈ serialize t, x < 256 := by
  rcases t with ⟨a, b, c, d, e⟩
  intro x hx
  simp only [serialize, List.mem_append] at hx
  rcases hx with (((ha | hb) | hc) | hd) | he
  · exact be32_lt a x ha
  · exact be32_lt b x hb
  · exact be32_lt c x hc
  · exact be32_lt d x hd
  · exact be32_lt e x he

lemma digest_lt (s : HashState) : ∀ x ∈ digest s, x < 256 := by
  simp only [digest]
  exact serialize_lt _

lemma hexDecode_byteHex (b : Nat) (rest : List Char) (hb : b < 256) :
    hexDecode (byteHex b ++ rest) = b :: hexDecode rest := by
  show hexDecode (hexChar (b / 16) :: hexChar (b % 16) :: rest) = b :: hexDecode rest
  rw [show hexDecode (hexChar (b / 16) :: hexChar (b % 16) :: rest)
      = (hexVal (hexChar (b / 16)) * 16 + hexVal (hexChar (b % 16))) :: hexDecode rest
    from by simp only [hexDecode]]
  rw [hexVal_hexChar _ (by omega), hexVal_hexChar _ (by omega)]
  rw [show b / 16 * 16 + b % 16 = b from by omega]

lemma hexBytes_decode : ∀ l : List Nat, (∀ x ∈ l, x < 256) →
    hexDecode ((l.map byteHex).flatten) = l := by
  intro l
  induction l with
  | nil => intro _; rfl
  | cons b bs ih =>
      intro hl
      rw [List.map_cons, List.flatten_cons]
      rw [hexDecode_byteHex b _ (hl b (List.mem_cons_self b bs))]
      rw [ih (fun x hx => hl x (List.mem_cons_of_mem b hx))]

lemma hexBytes_len : ∀ l : List Nat, ((l.map byteHex).flatten).length = 2 * l.length := by
  intro l
  induction l with
  | nil => rfl
  | cons b bs ih =>
      rw [List.map_cons, List.flatten_cons, List.length_append, ih]
      simp only [byteHex, List.length_cons, List.length_nil, List.length_singleton]
      omega

lemma hexBytes_mem : ∀ l : List Nat, (∀ x ∈ l, x < 256) →
    ∀ c ∈ (l.map byteHex).flatten, c ∈ "0123456789abcdef".data := by
  intro l hl c hc
  rw [List.mem_flatten] at hc
  obtain ⟨a, ha, hca⟩ := hc
  rw [List.mem_map] at ha
  obtain ⟨b, hb, rfl⟩ := ha
  have hblt := hl b hb
  simp only [byteHex, List.mem_cons, List.not_mem_nil, or_false] at hca
  rcases hca with rfl | rfl
  · exact hexChar_mem_alphabet _ (by omega)
  · exact hexChar_mem_alphabet _ (by omega)

lemma hexdigest_data (s : HashState) : (hexdigest s).data = ((digest s).map byteHex).flatten := rfl

/-- C8: hexdigest is exactly 40 lower-case hexadecimal characters, two
per digest byte most-significant nibble first, and decoding the string
recovers digest; it is a pure view of the digest bytes. -/
theorem C8_hexdigest_view :
    ∀ s : HashState,
      (hexdigest s).length = 40 ∧
      (∀ c ∈ (hexdigest s).data, c ∈ "0123456789abcdef".data) ∧
      hexDecode ((hexdigest s).data) = digest s := by
  intro s
  refine ⟨?_, ?_, ?_⟩
  · show (String.mk (((digest s).map byteHex).flatten)).length = 40
    show (((digest s).map byteHex).flatten).length = 40
    rw [hexBytes_len, digest_len]
  · intro c hc
    rw [hexdigest_data] at hc
    exact hexBytes_mem (digest s) (digest_lt s) c hc
  · rw [hexdigest_data]
    exact hexBytes_decode (digest s) (digest_lt s)

set_option maxRecDepth 100000 in
theorem C8_witness : Char.ofNat 100 ∈ "0123456789abcdef".data :=
  (C8_hexdigest_view init).2.1 (Char.ofNat 100) (by decide!)

end SHA1
